import Mathlib

/-!
Shallow embedding of the NovaSignal analytical core (`src/utils/indicators.ts`
together with the data model of `src/types.ts`) and proofs about it.

JavaScript numbers are modelled as rationals (`ℚ`); timestamps as integers.
Each definition mirrors one source function; line references point into
`src/utils/indicators.ts` unless stated otherwise.
-/

namespace NovaSignal

/-- The `TradeSignal` enum of `src/types.ts`: CALL, PUT, NEUTRAL (displayed
as NEUTRE) and WAITING (displayed as EN ATTENTE). -/
inductive TradeSignal where
  | CALL
  | PUT
  | NEUTRAL
  | WAITING
deriving DecidableEq, Repr

/-- Candle colours used by the Heikin-Ashi transform (the source uses the
string literals green and red). -/
inductive Color where
  | green
  | red
deriving DecidableEq, Repr

/-- Supertrend direction, a union of the string literals UP and DOWN in the
source. -/
inductive Direction where
  | UP
  | DOWN
deriving DecidableEq, Repr

/-- Trend label of `AnalysisResult`, a union of the string literals UP, DOWN
and SIDEWAYS in the source. -/
inductive Trend where
  | UP
  | DOWN
  | SIDEWAYS
deriving DecidableEq, Repr

/-- The `Candle` interface of `src/types.ts`: one OHLC bar.  The `open` field is renamed
`open_` because `open` is a Lean keyword. -/
structure Candle where
  time : ℤ
  open_ : ℚ
  high : ℚ
  low : ℚ
  close : ℚ
deriving DecidableEq, Repr

/-- The `HeikinAshiCandle` interface of `src/types.ts`: a candle plus derived colour,
wick flags and sizes. -/
structure HeikinAshiCandle where
  time : ℤ
  open_ : ℚ
  high : ℚ
  low : ℚ
  close : ℚ
  color : Color
  hasUpperWick : Bool
  hasLowerWick : Bool
  bodySize : ℚ
  upperWickSize : ℚ
  lowerWickSize : ℚ
deriving DecidableEq, Repr

/-- Default candle used for out-of-range list indexing (the source never
indexes out of range on the paths we verify; `List.getD` needs a default). -/
def dummyCandle : Candle := ⟨0, 0, 0, 0, 0⟩

/-- Default Heikin-Ashi candle for out-of-range indexing. -/
def dummyHa : HeikinAshiCandle := ⟨0, 0, 0, 0, 0, Color.green, false, false, 0, 0, 0⟩

/-- The forgetful map from a Heikin-Ashi candle back to a plain candle.
In TypeScript `HeikinAshiCandle extends Candle`, so the output of
`calculateHeikinAshi` can be fed to any candle-consuming function; the
consumers only read the five `Candle` fields, which this map retains. -/
def toCandle (h : HeikinAshiCandle) : Candle :=
  ⟨h.time, h.open_, h.high, h.low, h.close⟩

/-- The average `(open + high + low + close) / 4`, the Heikin-Ashi close formula
(lines 19 and 37 of `indicators.ts`). -/
def ohlc4 (c : Candle) : ℚ :=
  (c.open_ + c.high + c.low + c.close) / 4

/-- First element of the Heikin-Ashi output (lines 17-30): the raw candle
with `close` replaced by `ohlc4`; wick flags compare raw `high` / `low`
strictly against `max/min(open, haClose)` (no epsilon here). -/
def mkFirstHa (first : Candle) : HeikinAshiCandle :=
  let firstHaClose := ohlc4 first
  { time := first.time
    open_ := first.open_
    high := first.high
    low := first.low
    close := firstHaClose
    color := if first.open_ ≤ firstHaClose then Color.green else Color.red
    hasUpperWick := if max first.open_ firstHaClose < first.high then true else false
    hasLowerWick := if first.low < min first.open_ firstHaClose then true else false
    bodySize := |firstHaClose - first.open_|
    upperWickSize := first.high - max first.open_ firstHaClose
    lowerWickSize := min first.open_ firstHaClose - first.low }

/-- Loop body of `calculateHeikinAshi` (lines 32-59): the smoothed candle for
`curr` given the previous smoothed candle `prevHa`.  Wick flags here use the
source's epsilon `0.00001`. -/
def mkNextHa (prevHa : HeikinAshiCandle) (curr : Candle) : HeikinAshiCandle :=
  let haClose := ohlc4 curr
  let haOpen := (prevHa.open_ + prevHa.close) / 2
  let haHigh := max curr.high (max haOpen haClose)
  let haLow := min curr.low (min haOpen haClose)
  let bodySize := |haClose - haOpen|
  let upperWickSize := haHigh - max haOpen haClose
  let lowerWickSize := min haOpen haClose - haLow
  { time := curr.time
    open_ := haOpen
    high := haHigh
    low := haLow
    close := haClose
    color := if haOpen ≤ haClose then Color.green else Color.red
    hasUpperWick := if (1 : ℚ) / 100000 < upperWickSize then true else false
    hasLowerWick := if (1 : ℚ) / 100000 < lowerWickSize then true else false
    bodySize := bodySize
    upperWickSize := upperWickSize
    lowerWickSize := lowerWickSize }

/-- The chain of smoothed candles: `prev` already smoothed, followed by the
smoothing of `rest` where each element is derived from its predecessor's
smoothed value (the `haCandles[i - 1]` access in the source loop). -/
def haChain (prev : HeikinAshiCandle) : List Candle → List HeikinAshiCandle
  | [] => [prev]
  | c :: cs => prev :: haChain (mkNextHa prev c) cs

/-- Embeds `calculateHeikinAshi` (lines 12-62). -/
def calculateHeikinAshi : List Candle → List HeikinAshiCandle
  | [] => []
  | first :: rest => haChain (mkFirstHa first) rest

theorem haChain_length (prev : HeikinAshiCandle) (l : List Candle) :
    (haChain prev l).length = l.length + 1 := by
  induction l generalizing prev with
  | nil => rfl
  | cons c cs ih => simp [haChain, ih]

theorem haChain_getD_zero (prev : HeikinAshiCandle) (l : List Candle)
    (d : HeikinAshiCandle) : (haChain prev l).getD 0 d = prev := by
  cases l <;> rfl

theorem haChain_getD_succ (l : List Candle) (prev : HeikinAshiCandle) (i : ℕ)
    (h : i < l.length) (d : HeikinAshiCandle) :
    (haChain prev l).getD (i + 1) d
      = mkNextHa ((haChain prev l).getD i d) (l.getD i dummyCandle) := by
  induction l generalizing prev i with
  | nil => simp at h
  | cons c cs ih =>
    cases i with
    | zero =>
      have h1 : (haChain prev (c :: cs)).getD 1 d
          = (haChain (mkNextHa prev c) cs).getD 0 d := rfl
      rw [h1, haChain_getD_zero, haChain_getD_zero]
      rfl
    | succ j =>
      have hj : j < cs.length := by simpa using h
      simpa [haChain, List.getD_cons_succ] using ih (mkNextHa prev c) j hj

theorem calculateHeikinAshi_length (cs : List Candle) :
    (calculateHeikinAshi cs).length = cs.length := by
  cases cs with
  | nil => rfl
  | cons c rest => simp [calculateHeikinAshi, haChain_length]

/-- The recurrence of the source loop, phrased over indices: for `i + 1` in
range, element `i + 1` of the output is `mkNextHa` of element `i` and raw
candle `i + 1`. -/
theorem calculateHeikinAshi_getD_succ (cs : List Candle) (i : ℕ)
    (h : i + 1 < cs.length) (d : HeikinAshiCandle) :
    (calculateHeikinAshi cs).getD (i + 1) d
      = mkNextHa ((calculateHeikinAshi cs).getD i d)
          (cs.getD (i + 1) dummyCandle) := by
  cases cs with
  | nil => simp at h
  | cons c rest =>
    have hr : i < rest.length := by simpa using h
    simpa [calculateHeikinAshi, List.getD_cons_succ] using
      haChain_getD_succ rest (mkFirstHa c) i hr d

theorem calculateHeikinAshi_getD_zero (c : Candle) (rest : List Candle)
    (d : HeikinAshiCandle) :
    (calculateHeikinAshi (c :: rest)).getD 0 d = mkFirstHa c :=
  haChain_getD_zero (mkFirstHa c) rest d

/-- Tail recursion of `calculateEMA` (lines 77-82): given the smoothing
multiplier `k` and the previous EMA value, produce the remaining EMA values. -/
def emaFrom (k : ℚ) (prevEma : ℚ) : List ℚ → List ℚ
  | [] => []
  | price :: rest =>
      let newEma := (price - prevEma) * k + prevEma
      newEma :: emaFrom k newEma rest

/-- Embeds `calculateEMA` (lines 67-85): multiplier `k = 2/(period+1)`, seeded with
the first data point.  The period is an integer (the source takes a JS
number and the repo only ever passes integers); division by zero in `ℚ`
yields 0, and `k` is never used when the list has fewer than two points. -/
def calculateEMA (data : List ℚ) (period : ℤ) : List ℚ :=
  let k : ℚ := 2 / ((period : ℚ) + 1)
  match data with
  | [] => []
  | x :: rest => x :: emaFrom k x rest

/-- The consecutive differences `closes[i] - closes[i-1]` scanned by the RSI
loop (line 99). -/
def rsiDeltas (closes : List ℚ) : List ℚ :=
  List.zipWith (fun next prev => next - prev) closes.tail closes

/-- The RSI loop (lines 93-102) as a fold: accumulate `(gains, losses)` over
a list of changes; a change `≥ 0` adds to gains, otherwise its absolute
value adds to losses. -/
def gainsLosses (changes : List ℚ) : ℚ × ℚ :=
  changes.foldl
    (fun gl change =>
      if 0 ≤ change then (gl.1 + change, gl.2) else (gl.1, gl.2 + |change|))
    (0, 0)

/-- Embeds `calculateRSI` (lines 90-110).  The source loop runs over the last
`effectivePeriod` adjacent differences; a non-positive `effectivePeriod`
(possible only for a non-positive `period` argument) makes the loop body
never execute, which the embedding renders as the empty list of changes. -/
def calculateRSI (closePrices : List ℚ) (period : ℤ) : ℚ :=
  if closePrices.length < 2 then 50
  else
    let effectivePeriod : ℤ := min ((closePrices.length : ℤ) - 1) period
    let deltas := rsiDeltas closePrices
    let used :=
      if effectivePeriod ≤ 0 then []
      else deltas.drop (deltas.length - effectivePeriod.toNat)
    let gl := gainsLosses used
    let avgGain := gl.1 / (effectivePeriod : ℚ)
    let avgLoss := gl.2 / (effectivePeriod : ℚ)
    if avgLoss = 0 then 100
    else
      let rs := avgGain / avgLoss
      100 - 100 / (1 + rs)

/-- Return type of `calculateMACD` (line 131). -/
structure MacdResult where
  value : ℚ
  signal : ℚ
  histogram : ℚ
deriving DecidableEq, Repr

/-- Embeds `calculateMACD` (lines 115-132).  `macdLine[i] = fastEMA[i] - slowEMA[i]`
over all data indices (both EMA series have the input's length, so this is a
`zipWith`); the final values are read at index `length - 1`, in range
whenever the input is nonempty (`List.getD` supplies 0 otherwise — the only
caller guards with at least two candles). -/
def calculateMACD (data : List ℚ) (fastPeriod slowPeriod signalPeriod : ℤ) :
    MacdResult :=
  let fastEMA := calculateEMA data fastPeriod
  let slowEMA := calculateEMA data slowPeriod
  let macdLine := List.zipWith (fun a b => a - b) fastEMA slowEMA
  let signalLine := calculateEMA macdLine signalPeriod
  let currentMACD := macdLine.getD (macdLine.length - 1) 0
  let currentSignal := signalLine.getD (signalLine.length - 1) 0
  { value := currentMACD
    signal := currentSignal
    histogram := currentMACD - currentSignal }

/-- Return type of `calculateSupertrend` (line 140). -/
structure SupertrendResult where
  direction : Direction
  value : ℚ
deriving DecidableEq, Repr

/-- The true-range series of `calculateSupertrend` (lines 144-151): for each
adjacent pair, `max(high - low, |high - prevClose|, |low - prevClose|)`. -/
def trueRanges (candles : List Candle) : List ℚ :=
  List.zipWith
    (fun prev curr =>
      max (curr.high - curr.low)
        (max |curr.high - prev.close| |curr.low - prev.close|))
    candles candles.tail

/-- Embeds `calculateSupertrend` (lines 140-178): with fewer than `period + 1`
candles return `{UP, 0}`; otherwise ATR is the simple mean of the last
`period` true ranges (the fallback mean of all of them is dead on this
branch), and the last candle's `hl2 ± multiplier * ATR` bands classify the
direction.  `period` is a natural number; the repo only calls it with 10. -/
def calculateSupertrend (candles : List Candle) (period : ℕ)
    (multiplier : ℚ) : SupertrendResult :=
  if candles.length < period + 1 then ⟨Direction.UP, 0⟩
  else
    let tr := trueRanges candles
    let atr :=
      if period ≤ tr.length then
        ((tr.drop (tr.length - period)).sum) / (period : ℚ)
      else tr.sum / (tr.length : ℚ)
    let curr := candles.getD (candles.length - 1) dummyCandle
    let hl2 := (curr.high + curr.low) / 2
    let basicUpper := hl2 + multiplier * atr
    let basicLower := hl2 - multiplier * atr
    if basicLower < curr.close then ⟨Direction.UP, basicLower⟩
    else ⟨Direction.DOWN, basicUpper⟩

theorem emaFrom_length (k prevEma : ℚ) (l : List ℚ) :
    (emaFrom k prevEma l).length = l.length := by
  induction l generalizing prevEma with
  | nil => rfl
  | cons x rest ih => simp [emaFrom, ih]

theorem calculateEMA_length (data : List ℚ) (period : ℤ) :
    (calculateEMA data period).length = data.length := by
  cases data with
  | nil => rfl
  | cons x rest => simp [calculateEMA, emaFrom_length]

theorem trueRanges_length (candles : List Candle) :
    (trueRanges candles).length = candles.length - 1 := by
  cases candles with
  | nil => rfl
  | cons c rest => simp [trueRanges]

/-- The `AnalysisResult` interface of `src/types.ts`. -/
structure AnalysisResult where
  signal : TradeSignal
  confidence : ℤ
  rsi : ℚ
  ema20 : ℚ
  ema50 : ℚ
  trend : Trend
  macd : MacdResult
  supertrend : SupertrendResult
deriving DecidableEq, Repr

/-!
The intermediate values of `analyzeMarket` (lines 185-313), one definition
per `const`/`let` of the source's main branch.  All of them are read only
when the smoothed series has at least two elements; out-of-range `getD`
defaults never materialise there.
-/

/-- Source line `closes = candles.map(c => c.close)` (line 190). -/
def closesOf (candles : List Candle) : List ℚ :=
  candles.map Candle.close

/-- Source line `currentHa = haCandles[haCandles.length - 1]` (line 207). -/
def currentHaOf (candles : List Candle) : HeikinAshiCandle :=
  let haCandles := calculateHeikinAshi candles
  haCandles.getD (haCandles.length - 1) dummyHa

/-- Source line `prevHa = haCandles[haCandles.length - 2]` (line 208). -/
def prevHaOf (candles : List Candle) : HeikinAshiCandle :=
  let haCandles := calculateHeikinAshi candles
  haCandles.getD (haCandles.length - 2) dummyHa

/-- Source line `price = currentHa.close` (line 209). -/
def priceOf (candles : List Candle) : ℚ :=
  (currentHaOf candles).close

/-- Source line `rsi = calculateRSI(closes, 14)` (line 212). -/
def rsiOf (candles : List Candle) : ℚ :=
  calculateRSI (closesOf candles) 14

/-- Source line `ema20 = ema20Arr.length > 0 ? ema20Arr[ema20Arr.length - 1] : price`
(lines 213, 218). -/
def ema20Of (candles : List Candle) : ℚ :=
  let ema20Arr := calculateEMA (closesOf candles) 20
  if 0 < ema20Arr.length then ema20Arr.getD (ema20Arr.length - 1) 0
  else priceOf candles

/-- Source line `ema50 = ema50Arr.length > 0 ? ema50Arr[ema50Arr.length - 1] : price`
(lines 214, 219). -/
def ema50Of (candles : List Candle) : ℚ :=
  let ema50Arr := calculateEMA (closesOf candles) 50
  if 0 < ema50Arr.length then ema50Arr.getD (ema50Arr.length - 1) 0
  else priceOf candles

/-- Source line `macd = calculateMACD(closes)` with the default periods 12/26/9
(line 215). -/
def macdOf (candles : List Candle) : MacdResult :=
  calculateMACD (closesOf candles) 12 26 9

/-- Source line `supertrend = calculateSupertrend(candles, 10, 3)` (line 216). -/
def supertrendOf (candles : List Candle) : SupertrendResult :=
  calculateSupertrend candles 10 3

/-- Source line `isSmallBody = currentHa.bodySize < (high - low) * 0.3` (lines 228-229). -/
def isSmallBodyOf (candles : List Candle) : Prop :=
  (currentHaOf candles).bodySize
    < ((currentHaOf candles).high - (currentHaOf candles).low) * (3 / 10)

instance (candles : List Candle) : Decidable (isSmallBodyOf candles) := by
  unfold isSmallBodyOf; infer_instance

/-- Source variable `candleSignal`: CALL on a green smoothed candle, PUT otherwise
(lines 222-236). -/
def candleSignalOf (candles : List Candle) : TradeSignal :=
  if (currentHaOf candles).color = Color.green then TradeSignal.CALL
  else TradeSignal.PUT

/-- The confluence score of Step 4 (lines 239-284): 30 base points plus the
branch-dependent adjustments, before the tie-break and the 99 cap. -/
def rawConfidence (candles : List Candle) : ℤ :=
  let price := priceOf candles
  let ema20 := ema20Of candles
  let ema50 := ema50Of candles
  let rsi := rsiOf candles
  let macd := macdOf candles
  let supertrend := supertrendOf candles
  let currentHa := currentHaOf candles
  let prevHa := prevHaOf candles
  let isSmallBody := isSmallBodyOf candles
  30 +
    if candleSignalOf candles = TradeSignal.CALL then
      (if ema20 < price then 10 else 0) +
      (if ema50 < ema20 then 10 else 0) +
      (if 50 < rsi ∧ rsi < 80 then 10 else 0) +
      (if rsi < 30 then 15 else 0) +
      (if 0 < macd.histogram then 10 else 0) +
      (if macd.signal < macd.value then 5 else 0) +
      (if supertrend.direction = Direction.UP then 10 else 0) +
      (if ¬isSmallBody ∧ currentHa.hasLowerWick = false then 10 else 0) +
      (if isSmallBody ∧ prevHa.color = Color.red then -10 else 0)
    else
      (if price < ema20 then 10 else 0) +
      (if ema20 < ema50 then 10 else 0) +
      (if rsi < 50 ∧ 20 < rsi then 10 else 0) +
      (if 70 < rsi then 15 else 0) +
      (if macd.histogram < 0 then 10 else 0) +
      (if macd.value < macd.signal then 5 else 0) +
      (if supertrend.direction = Direction.DOWN then 10 else 0) +
      (if ¬isSmallBody ∧ currentHa.hasUpperWick = false then 10 else 0) +
      (if isSmallBody ∧ prevHa.color = Color.green then -10 else 0)

/-- Trend label (lines 289-291): UP if `ema20 > ema50`, DOWN if
`ema20 < ema50`, otherwise SIDEWAYS. -/
def trendOf (candles : List Candle) : Trend :=
  if ema50Of candles < ema20Of candles then Trend.UP
  else if ema20Of candles < ema50Of candles then Trend.DOWN
  else Trend.SIDEWAYS

/-- The cold-start fallback of `analyzeMarket` (lines 193-205). -/
def coldStartResult : AnalysisResult :=
  { signal := TradeSignal.CALL
    confidence := 50
    rsi := 50
    ema20 := 0
    ema50 := 0
    trend := Trend.SIDEWAYS
    macd := ⟨0, 0, 0⟩
    supertrend := ⟨Direction.UP, 0⟩ }

/-- Embeds `analyzeMarket` (lines 185-313): cold-start fallback when fewer than two
smoothed candles exist, otherwise the confluence result with the `< 40`
tie-break (override signal by price vs ema20 and force confidence 45) and
the `min(confidence, 99)` cap. -/
def analyzeMarket (candles : List Candle) : AnalysisResult :=
  if (calculateHeikinAshi candles).length < 2 then coldStartResult
  else
    let confidence := rawConfidence candles
    { signal :=
        if confidence < 40 then
          if ema20Of candles < priceOf candles then TradeSignal.CALL
          else TradeSignal.PUT
        else candleSignalOf candles
      confidence := min (if confidence < 40 then 45 else confidence) 99
      rsi := rsiOf candles
      ema20 := ema20Of candles
      ema50 := ema50Of candles
      trend := trendOf candles
      macd := macdOf candles
      supertrend := supertrendOf candles }

/-! ### Field lemmas for the Heikin-Ashi constructors -/

theorem mkNextHa_close (p : HeikinAshiCandle) (c : Candle) :
    (mkNextHa p c).close = ohlc4 c := rfl

theorem mkNextHa_open (p : HeikinAshiCandle) (c : Candle) :
    (mkNextHa p c).open_ = (p.open_ + p.close) / 2 := rfl

theorem mkNextHa_high (p : HeikinAshiCandle) (c : Candle) :
    (mkNextHa p c).high
      = max c.high (max (mkNextHa p c).open_ (mkNextHa p c).close) := rfl

theorem mkNextHa_low (p : HeikinAshiCandle) (c : Candle) :
    (mkNextHa p c).low
      = min c.low (min (mkNextHa p c).open_ (mkNextHa p c).close) := rfl

theorem mkNextHa_color (p : HeikinAshiCandle) (c : Candle) :
    ((mkNextHa p c).color = Color.green
      ↔ (mkNextHa p c).open_ ≤ (mkNextHa p c).close) := by
  simp only [mkNextHa]
  split_ifs with h
  · exact iff_of_true rfl h
  · exact iff_of_false (by simp) h

theorem mkNextHa_upper_flag (p : HeikinAshiCandle) (c : Candle) :
    ((mkNextHa p c).hasUpperWick = true
      ↔ (1 : ℚ) / 100000 < (mkNextHa p c).upperWickSize) := by
  simp only [mkNextHa]
  split_ifs with h
  · exact iff_of_true rfl h
  · exact iff_of_false (by simp) h

theorem mkNextHa_lower_flag (p : HeikinAshiCandle) (c : Candle) :
    ((mkNextHa p c).hasLowerWick = true
      ↔ (1 : ℚ) / 100000 < (mkNextHa p c).lowerWickSize) := by
  simp only [mkNextHa]
  split_ifs with h
  · exact iff_of_true rfl h
  · exact iff_of_false (by simp) h

theorem mkFirstHa_upper_flag (c : Candle) :
    ((mkFirstHa c).hasUpperWick = true
      ↔ 0 < (mkFirstHa c).upperWickSize) := by
  simp only [mkFirstHa]
  split_ifs with h
  · exact iff_of_true rfl (sub_pos.mpr h)
  · exact iff_of_false (by simp) (fun hp => h (sub_pos.mp hp))

theorem mkFirstHa_lower_flag (c : Candle) :
    ((mkFirstHa c).hasLowerWick = true
      ↔ 0 < (mkFirstHa c).lowerWickSize) := by
  simp only [mkFirstHa]
  split_ifs with h
  · exact iff_of_true rfl (sub_pos.mpr h)
  · exact iff_of_false (by simp) (fun hp => h (sub_pos.mp hp))

/-! ### Claims -/

/-- C1 (counterexample): `calculateRSI [10, 10]` with the default period 14
does not return 50: the two-element list skips the `length < 2` early
return, both gains and losses accumulate to 0, and the `avgLoss == 0` branch
returns 100 instead. -/
theorem rsi_two_equal_closes_ne_50 :
    calculateRSI [10, 10] 14 ≠ 50 := by
  norm_num [calculateRSI, rsiDeltas, gainsLosses, min_def]

/-- C1 (amended): `calculateRSI [10, 10]` (default period 14) returns 100
via the `avgLoss == 0` branch; the 50 fallback fires only for fewer than two
closes. -/
theorem rsi_two_equal_closes_eq_100 :
    calculateRSI [10, 10] 14 = 100 := by
  norm_num [calculateRSI, rsiDeltas, gainsLosses, min_def]

/-- C2: on any non-empty candle list, `calculateHeikinAshi` preserves the
length, keeps the first candle's open and averages its OHLC into the first
smoothed close, and every later element satisfies the Heikin-Ashi
recurrences: `close' = ohlc4`, `open' = (prev open' + prev close') / 2`,
`high' = max(high, open', close')`, `low' = min(low, open', close')`, and
the colour is green exactly when `open' ≤ close'`. -/
theorem heikinAshi_spec (cs : List Candle) (hne : cs ≠ []) :
    (calculateHeikinAshi cs).length = cs.length
    ∧ ((calculateHeikinAshi cs).getD 0 dummyHa).open_
        = (cs.getD 0 dummyCandle).open_
    ∧ ((calculateHeikinAshi cs).getD 0 dummyHa).close
        = ohlc4 (cs.getD 0 dummyCandle)
    ∧ ∀ i, i + 1 < cs.length →
        ((calculateHeikinAshi cs).getD (i + 1) dummyHa).close
            = ohlc4 (cs.getD (i + 1) dummyCandle)
        ∧ ((calculateHeikinAshi cs).getD (i + 1) dummyHa).open_
            = (((calculateHeikinAshi cs).getD i dummyHa).open_
                + ((calculateHeikinAshi cs).getD i dummyHa).close) / 2
        ∧ ((calculateHeikinAshi cs).getD (i + 1) dummyHa).high
            = max (cs.getD (i + 1) dummyCandle).high
                (max ((calculateHeikinAshi cs).getD (i + 1) dummyHa).open_
                  ((calculateHeikinAshi cs).getD (i + 1) dummyHa).close)
        ∧ ((calculateHeikinAshi cs).getD (i + 1) dummyHa).low
            = min (cs.getD (i + 1) dummyCandle).low
                (min ((calculateHeikinAshi cs).getD (i + 1) dummyHa).open_
                  ((calculateHeikinAshi cs).getD (i + 1) dummyHa).close)
        ∧ (((calculateHeikinAshi cs).getD (i + 1) dummyHa).color = Color.green
            ↔ ((calculateHeikinAshi cs).getD (i + 1) dummyHa).open_
                ≤ ((calculateHeikinAshi cs).getD (i + 1) dummyHa).close) := by
  obtain ⟨c, rest, rfl⟩ := List.exists_cons_of_ne_nil hne
  refine ⟨calculateHeikinAshi_length _, ?_, ?_, ?_⟩
  · rw [calculateHeikinAshi_getD_zero]
    rfl
  · rw [calculateHeikinAshi_getD_zero]
    rfl
  · intro i hi
    rw [calculateHeikinAshi_getD_succ _ i hi]
    exact ⟨mkNextHa_close _ _, mkNextHa_open _ _, mkNextHa_high _ _,
      mkNextHa_low _ _, mkNextHa_color _ _⟩

/-- A small concrete two-candle window used to instantiate the hypotheses of
the universal theorems. -/
def wCandleA : Candle := ⟨0, 1, 2, 1 / 2, 3 / 2⟩

/-- Second candle of the concrete window. -/
def wCandleB : Candle := ⟨15, 3 / 2, 5 / 2, 1, 2⟩

/-- The concrete two-candle window. -/
def wWindow : List Candle := [wCandleA, wCandleB]

/-- Witness for `heikinAshi_spec` on the concrete window, with the inner
index quantifier instantiated at the second element. -/
theorem heikinAshi_spec_witness :
    wWindow ≠ []
    ∧ (calculateHeikinAshi wWindow).length = wWindow.length
    ∧ ((calculateHeikinAshi wWindow).getD 0 dummyHa).open_
        = (wWindow.getD 0 dummyCandle).open_
    ∧ ((calculateHeikinAshi wWindow).getD 0 dummyHa).close
        = ohlc4 (wWindow.getD 0 dummyCandle)
    ∧ (((calculateHeikinAshi wWindow).getD 1 dummyHa).close
          = ohlc4 (wWindow.getD 1 dummyCandle)
        ∧ ((calculateHeikinAshi wWindow).getD 1 dummyHa).open_
            = (((calculateHeikinAshi wWindow).getD 0 dummyHa).open_
                + ((calculateHeikinAshi wWindow).getD 0 dummyHa).close) / 2
        ∧ ((calculateHeikinAshi wWindow).getD 1 dummyHa).high
            = max (wWindow.getD 1 dummyCandle).high
                (max ((calculateHeikinAshi wWindow).getD 1 dummyHa).open_
                  ((calculateHeikinAshi wWindow).getD 1 dummyHa).close)
        ∧ ((calculateHeikinAshi wWindow).getD 1 dummyHa).low
            = min (wWindow.getD 1 dummyCandle).low
                (min ((calculateHeikinAshi wWindow).getD 1 dummyHa).open_
                  ((calculateHeikinAshi wWindow).getD 1 dummyHa).close)
        ∧ (((calculateHeikinAshi wWindow).getD 1 dummyHa).color = Color.green
            ↔ ((calculateHeikinAshi wWindow).getD 1 dummyHa).open_
                ≤ ((calculateHeikinAshi wWindow).getD 1 dummyHa).close)) := by
  have h := heikinAshi_spec wWindow (by simp [wWindow])
  exact ⟨by simp [wWindow], h.1, h.2.1, h.2.2.1, h.2.2.2 0 (by simp [wWindow])⟩

/-- C6 (counterexample): on the single-candle list with open 0, high 1e-6,
low 0, close 0, the first smoothed candle has `hasUpperWick = true` although
its `upperWickSize` (7.5e-7) does not exceed the epsilon 1e-5 — the first
element's wick flags use strict positivity, not the epsilon tolerance. -/
theorem first_wick_flag_ignores_epsilon :
    ((calculateHeikinAshi [⟨0, 0, 1 / 1000000, 0, 0⟩]).getD 0 dummyHa).hasUpperWick
        = true
    ∧ ¬((1 : ℚ) / 100000
        < ((calculateHeikinAshi [⟨0, 0, 1 / 1000000, 0, 0⟩]).getD 0
            dummyHa).upperWickSize) := by
  constructor <;>
    norm_num [calculateHeikinAshi, haChain, mkFirstHa, ohlc4, max_def, min_def]

/-- C6 (amended): for every output element of index `i > 0`, the wick flags
match the epsilon rule (flag set iff the wick size exceeds 1e-5); the first
element instead sets its flags iff the corresponding wick size is strictly
positive. -/
theorem wick_flag_semantics (cs : List Candle) (hne : cs ≠ []) :
    (((calculateHeikinAshi cs).getD 0 dummyHa).hasUpperWick = true
        ↔ 0 < ((calculateHeikinAshi cs).getD 0 dummyHa).upperWickSize)
    ∧ (((calculateHeikinAshi cs).getD 0 dummyHa).hasLowerWick = true
        ↔ 0 < ((calculateHeikinAshi cs).getD 0 dummyHa).lowerWickSize)
    ∧ ∀ i, i + 1 < cs.length →
        ((((calculateHeikinAshi cs).getD (i + 1) dummyHa).hasUpperWick = true
            ↔ (1 : ℚ) / 100000
                < ((calculateHeikinAshi cs).getD (i + 1) dummyHa).upperWickSize)
        ∧ (((calculateHeikinAshi cs).getD (i + 1) dummyHa).hasLowerWick = true
            ↔ (1 : ℚ) / 100000
                < ((calculateHeikinAshi cs).getD (i + 1) dummyHa).lowerWickSize)) := by
  obtain ⟨c, rest, rfl⟩ := List.exists_cons_of_ne_nil hne
  refine ⟨?_, ?_, ?_⟩
  · rw [calculateHeikinAshi_getD_zero]
    exact mkFirstHa_upper_flag c
  · rw [calculateHeikinAshi_getD_zero]
    exact mkFirstHa_lower_flag c
  · intro i hi
    rw [calculateHeikinAshi_getD_succ _ i hi]
    exact ⟨mkNextHa_upper_flag _ _, mkNextHa_lower_flag _ _⟩

/-- Witness for `wick_flag_semantics` on the concrete window, inner
quantifier instantiated at the second element. -/
theorem wick_flag_semantics_witness :
    wWindow ≠ []
    ∧ (((calculateHeikinAshi wWindow).getD 0 dummyHa).hasUpperWick = true
        ↔ 0 < ((calculateHeikinAshi wWindow).getD 0 dummyHa).upperWickSize)
    ∧ (((calculateHeikinAshi wWindow).getD 0 dummyHa).hasLowerWick = true
        ↔ 0 < ((calculateHeikinAshi wWindow).getD 0 dummyHa).lowerWickSize)
    ∧ ((((calculateHeikinAshi wWindow).getD 1 dummyHa).hasUpperWick = true
          ↔ (1 : ℚ) / 100000
              < ((calculateHeikinAshi wWindow).getD 1 dummyHa).upperWickSize)
        ∧ (((calculateHeikinAshi wWindow).getD 1 dummyHa).hasLowerWick = true
          ↔ (1 : ℚ) / 100000
              < ((calculateHeikinAshi wWindow).getD 1 dummyHa).lowerWickSize)) := by
  have h := wick_flag_semantics wWindow (by simp [wWindow])
  exact ⟨by simp [wWindow], h.1, h.2.1, h.2.2 0 (by simp [wWindow])⟩

/-- A two-candle window on which the Heikin-Ashi transform is a fixed point:
each candle has four pairwise distinct OHLC values and a real range, yet
smoothing its own output reproduces it exactly. -/
def fixedWindow : List Candle :=
  [⟨0, 9 / 5, 31 / 10, 11 / 10, 2⟩, ⟨1, 41 / 20, 5 / 2, 19 / 10, 39 / 20⟩]

/-- A two-candle window where the second smoothing pass differs from the
first. -/
def driftWindow : List Candle := [⟨0, 1, 3, 0, 2⟩, ⟨1, 2, 4, 1, 3⟩]

/-- C9 (counterexample): `fixedWindow` has two candles, each with
`high ≠ low` and `open ≠ close` (no degenerate flat candle), and applying
`calculateHeikinAshi` to its own output reproduces the single-pass output
exactly — the transform IS idempotent on this window, refuting the claim
that the second pass differs on every window of ≥ 2 non-degenerate
candles. -/
theorem heikinAshi_idempotent_on_nondegenerate_window :
    2 ≤ fixedWindow.length
    ∧ (fixedWindow.getD 0 dummyCandle).high ≠ (fixedWindow.getD 0 dummyCandle).low
    ∧ (fixedWindow.getD 0 dummyCandle).open_ ≠ (fixedWindow.getD 0 dummyCandle).close
    ∧ (fixedWindow.getD 1 dummyCandle).high ≠ (fixedWindow.getD 1 dummyCandle).low
    ∧ (fixedWindow.getD 1 dummyCandle).open_ ≠ (fixedWindow.getD 1 dummyCandle).close
    ∧ calculateHeikinAshi ((calculateHeikinAshi fixedWindow).map toCandle)
        = calculateHeikinAshi fixedWindow := by
  refine ⟨by norm_num [fixedWindow], by norm_num [fixedWindow],
    by norm_num [fixedWindow], by norm_num [fixedWindow],
    by norm_num [fixedWindow], ?_⟩
  norm_num [fixedWindow, calculateHeikinAshi, haChain, mkFirstHa, mkNextHa,
    ohlc4, toCandle, max_def, min_def, abs_eq_max_neg]

/-- C9 (amended): the transform is not idempotent in general — there exists
a window of two non-degenerate candles whose second smoothing pass differs
from the first (though, per the counterexample, not every such window
does). -/
theorem heikinAshi_not_idempotent_on_driftWindow :
    2 ≤ driftWindow.length
    ∧ (driftWindow.getD 0 dummyCandle).high ≠ (driftWindow.getD 0 dummyCandle).low
    ∧ (driftWindow.getD 0 dummyCandle).open_ ≠ (driftWindow.getD 0 dummyCandle).close
    ∧ (driftWindow.getD 1 dummyCandle).high ≠ (driftWindow.getD 1 dummyCandle).low
    ∧ (driftWindow.getD 1 dummyCandle).open_ ≠ (driftWindow.getD 1 dummyCandle).close
    ∧ calculateHeikinAshi ((calculateHeikinAshi driftWindow).map toCandle)
        ≠ calculateHeikinAshi driftWindow := by
  refine ⟨by norm_num [driftWindow], by norm_num [driftWindow],
    by norm_num [driftWindow], by norm_num [driftWindow],
    by norm_num [driftWindow], ?_⟩
  norm_num [driftWindow, calculateHeikinAshi, haChain, mkFirstHa, mkNextHa,
    ohlc4, toCandle, max_def, min_def, abs_eq_max_neg]

/-- The Supertrend result the spec describes for the long-history case
(spec-side formulation for C7): ATR is the simple mean of the last `period`
true ranges, and the last candle's `hl2 ± multiplier * ATR` bands classify
the direction. -/
def supertrendSpecValue (candles : List Candle) (period : ℕ) (multiplier : ℚ) :
    SupertrendResult :=
  let atr := ((trueRanges candles).drop ((trueRanges candles).length - period)).sum
      / (period : ℚ)
  let last := candles.getD (candles.length - 1) dummyCandle
  let hl2 := (last.high + last.low) / 2
  let basicUpper := hl2 + multiplier * atr
  let basicLower := hl2 - multiplier * atr
  if basicLower < last.close then ⟨Direction.UP, basicLower⟩
  else ⟨Direction.DOWN, basicUpper⟩

/-- C7: for a positive period `p`, `calculateSupertrend` returns `{UP, 0}`
whenever fewer than `p + 1` candles are given, and on longer lists it
matches the spec's single-step band formula with ATR the simple mean of the
last `p` true ranges (the fallback mean over all true ranges is dead code on
that branch). -/
theorem supertrend_spec (cs : List Candle) (p : ℕ) (m : ℚ) (hp : 1 ≤ p) :
    (cs.length < p + 1 → calculateSupertrend cs p m = ⟨Direction.UP, 0⟩)
    ∧ (p + 1 ≤ cs.length →
        calculateSupertrend cs p m = supertrendSpecValue cs p m) := by
  constructor
  · intro h
    simp only [calculateSupertrend]
    rw [if_pos h]
  · intro h
    have htr : p ≤ (trueRanges cs).length := by
      rw [trueRanges_length]
      omega
    simp only [calculateSupertrend, supertrendSpecValue]
    rw [if_neg (by omega), if_pos htr]

/-- Witness for `supertrend_spec` on the concrete window with period 1. -/
theorem supertrend_spec_witness :
    1 ≤ 1
    ∧ (wWindow.length < 1 + 1 →
        calculateSupertrend wWindow 1 3 = ⟨Direction.UP, 0⟩)
    ∧ (1 + 1 ≤ wWindow.length →
        calculateSupertrend wWindow 1 3 = supertrendSpecValue wWindow 1 3) :=
  ⟨by norm_num, supertrend_spec wWindow 1 3 (by norm_num)⟩

/-- C8 (counterexample): the indicator functions do not fail on a malformed
(negative) period — they return ordinary values: `calculateEMA [5] (-1)`
returns the series `[5]` and `calculateRSI [10, 11] (-1)` returns 100 (the
hostile period empties the scan window, so `avgLoss = 0`). -/
theorem indicators_return_values_on_negative_period :
    calculateEMA [5] (-1) = [5] ∧ calculateRSI [10, 11] (-1) = 100 := by
  constructor
  · rfl
  · norm_num [calculateRSI, rsiDeltas, gainsLosses, min_def]

/-- C8 (amended): `calculateEMA` and `calculateRSI` perform no argument
validation; for every negative period they return plain values through
their normal code paths instead of failing. -/
theorem indicators_no_period_validation (p : ℤ) (hp : p < 0) :
    calculateEMA [5] p = [5] ∧ calculateRSI [10, 11] p = 100 := by
  refine ⟨rfl, ?_⟩
  have h1 : ¬((1 : ℤ) ≤ p) := by omega
  have h2 : p ≤ 0 := by omega
  norm_num [calculateRSI, rsiDeltas, gainsLosses, min_def, h1, h2]

/-- Witness for `indicators_no_period_validation` at period `-1`. -/
theorem indicators_no_period_validation_witness :
    (-1 : ℤ) < 0 ∧ (calculateEMA [5] (-1) = [5] ∧ calculateRSI [10, 11] (-1) = 100) :=
  ⟨by norm_num, indicators_no_period_validation (-1) (by norm_num)⟩

/-! ### Projection lemmas for the main branch of `analyzeMarket` -/

theorem analyzeMarket_signal_eq (cs : List Candle)
    (h : 2 ≤ (calculateHeikinAshi cs).length) :
    (analyzeMarket cs).signal
      = if rawConfidence cs < 40 then
          if ema20Of cs < priceOf cs then TradeSignal.CALL else TradeSignal.PUT
        else candleSignalOf cs := by
  simp only [analyzeMarket]
  rw [if_neg (not_lt.2 h)]

theorem analyzeMarket_confidence_eq (cs : List Candle)
    (h : 2 ≤ (calculateHeikinAshi cs).length) :
    (analyzeMarket cs).confidence
      = min (if rawConfidence cs < 40 then 45 else rawConfidence cs) 99 := by
  simp only [analyzeMarket]
  rw [if_neg (not_lt.2 h)]

/-- C3: whenever the smoothed series has fewer than two elements — which
happens exactly for candle lists of length < 2, i.e. the empty and the
one-candle list — `analyzeMarket` returns the fixed cold-start result
(CALL, confidence 50, rsi 50, emas 0, SIDEWAYS, zero MACD, `{UP, 0}`
Supertrend); the embedding is a total function, so no exception is
possible. -/
theorem analyzeMarket_cold_start (cs : List Candle)
    (h : (calculateHeikinAshi cs).length < 2) :
    cs.length < 2
    ∧ analyzeMarket cs =
        { signal := TradeSignal.CALL
          confidence := 50
          rsi := 50
          ema20 := 0
          ema50 := 0
          trend := Trend.SIDEWAYS
          macd := ⟨0, 0, 0⟩
          supertrend := ⟨Direction.UP, 0⟩ } := by
  refine ⟨by rwa [calculateHeikinAshi_length] at h, ?_⟩
  simp only [analyzeMarket]
  rw [if_pos h]
  rfl

/-- Witness for `analyzeMarket_cold_start` on a one-candle list. -/
theorem analyzeMarket_cold_start_witness :
    (calculateHeikinAshi [wCandleA]).length < 2
    ∧ (([wCandleA] : List Candle).length < 2
        ∧ analyzeMarket [wCandleA] =
            { signal := TradeSignal.CALL
              confidence := 50
              rsi := 50
              ema20 := 0
              ema50 := 0
              trend := Trend.SIDEWAYS
              macd := ⟨0, 0, 0⟩
              supertrend := ⟨Direction.UP, 0⟩ }) :=
  ⟨by rw [calculateHeikinAshi_length]; norm_num,
    analyzeMarket_cold_start [wCandleA] (by rw [calculateHeikinAshi_length]; norm_num)⟩

/-- C4: with at least two smoothed candles, an accumulated confluence score
below 40 makes `analyzeMarket` override the signal by comparing the current
smoothed close against ema20 (CALL when greater, PUT otherwise) and force
confidence 45; and the returned confidence always equals the minimum of the
(possibly overridden) confidence and 99. -/
theorem analyzeMarket_tiebreak_and_cap (cs : List Candle)
    (h : 2 ≤ (calculateHeikinAshi cs).length) :
    (rawConfidence cs < 40 →
        ((analyzeMarket cs).signal
            = if ema20Of cs < priceOf cs then TradeSignal.CALL
              else TradeSignal.PUT)
        ∧ (analyzeMarket cs).confidence = 45)
    ∧ (analyzeMarket cs).confidence
        = min (if rawConfidence cs < 40 then 45 else rawConfidence cs) 99 := by
  refine ⟨fun hc => ⟨?_, ?_⟩, analyzeMarket_confidence_eq cs h⟩
  · rw [analyzeMarket_signal_eq cs h, if_pos hc]
  · rw [analyzeMarket_confidence_eq cs h, if_pos hc]
    norm_num

/-- Witness for `analyzeMarket_tiebreak_and_cap` on the concrete window. -/
theorem analyzeMarket_tiebreak_and_cap_witness :
    2 ≤ (calculateHeikinAshi wWindow).length
    ∧ ((rawConfidence wWindow < 40 →
          ((analyzeMarket wWindow).signal
              = if ema20Of wWindow < priceOf wWindow then TradeSignal.CALL
                else TradeSignal.PUT)
          ∧ (analyzeMarket wWindow).confidence = 45)
        ∧ (analyzeMarket wWindow).confidence
            = min (if rawConfidence wWindow < 40 then 45
                else rawConfidence wWindow) 99) :=
  ⟨by rw [calculateHeikinAshi_length]; norm_num [wWindow],
    analyzeMarket_tiebreak_and_cap wWindow
      (by rw [calculateHeikinAshi_length]; norm_num [wWindow])⟩

/-- C5: the signal of every `analyzeMarket` result is CALL or PUT — the
NEUTRAL and WAITING variants of `TradeSignal` are never produced. -/
theorem analyzeMarket_signal_binary (cs : List Candle) :
    (analyzeMarket cs).signal = TradeSignal.CALL
    ∨ (analyzeMarket cs).signal = TradeSignal.PUT := by
  by_cases h : (calculateHeikinAshi cs).length < 2
  · left
    simp only [analyzeMarket]
    rw [if_pos h]
    rfl
  · rw [analyzeMarket_signal_eq cs (not_lt.1 h)]
    split_ifs with h40 hpe
    · exact Or.inl rfl
    · exact Or.inr rfl
    · by_cases hg : (currentHaOf cs).color = Color.green
      · exact Or.inl (by simp [candleSignalOf, hg])
      · exact Or.inr (by simp [candleSignalOf, hg])

/-- C10: with at least two smoothed candles, the returned confidence lies in
`[40, 99]`: scores below 40 are replaced by 45 by the tie-break, larger
scores are at least 40, and the final cap keeps the value at most 99. -/
theorem analyzeMarket_confidence_bounds (cs : List Candle)
    (h : 2 ≤ (calculateHeikinAshi cs).length) :
    40 ≤ (analyzeMarket cs).confidence ∧ (analyzeMarket cs).confidence ≤ 99 := by
  rw [analyzeMarket_confidence_eq cs h]
  constructor
  · rcases lt_or_le (rawConfidence cs) 40 with h40 | h40
    · rw [if_pos h40]
      norm_num
    · rw [if_neg (not_lt.2 h40)]
      exact le_min h40 (by norm_num)
  · exact min_le_right _ _

/-- Witness for `analyzeMarket_confidence_bounds` on the concrete window. -/
theorem analyzeMarket_confidence_bounds_witness :
    2 ≤ (calculateHeikinAshi wWindow).length
    ∧ (40 ≤ (analyzeMarket wWindow).confidence
        ∧ (analyzeMarket wWindow).confidence ≤ 99) :=
  ⟨by rw [calculateHeikinAshi_length]; norm_num [wWindow],
    analyzeMarket_confidence_bounds wWindow
      (by rw [calculateHeikinAshi_length]; norm_num [wWindow])⟩

end NovaSignal
